import Mathlib

/-!
# Verification of the voip_workspace tone generator

Shallow embedding of `src/demo/tonegen.cpp` and
`src/toolbox/include/audiobuffer.h` (project voip_workspace).

Conventions of the embedding:
* C++ `float` arithmetic is idealised as real arithmetic (`ℝ`), the
  standard idealisation for specifications phrased over `sin` and real
  intervals.
* The `unsigned int` sample counter `sampleCount_` is a natural number
  reduced modulo `2^32` exactly where the C++ increment wraps.
* `std::default_random_engine` is modelled as libstdc++'s
  `std::minstd_rand0`: the linear congruential generator
  `x := 16807 * x mod 2147483647` with default seed `1`; a
  `std::uniform_real_distribution<float>(lo, hi)` draw maps one engine
  output `x` to `lo + (hi - lo) * (x - min) / (max - min + 1)`.
* The RtAudio backend is external: its success or failure at each call
  (`openStream`, `startStream`, `stopStream`, `closeStream`) and the
  values it supplies (default device id, negotiated period size) enter
  the model as explicit parameters; a thrown `RtAudioError` corresponds
  to the corresponding flag being `false`, and the catch block in the
  C++ code corresponds to the failure branch of the model.
-/

/-- The three concrete subclasses of `ToneGen` in tonegen.cpp. -/
inductive GenKind where
  | sine
  | square
  | noise
deriving DecidableEq, Repr

/-- Modulus of the `unsigned int` member `sampleCount_`: `2^32`. -/
def uintWidth : ℕ := 4294967296

/-- Modulus of `std::minstd_rand0` (libstdc++'s `std::default_random_engine`). -/
def lcgModulus : ℕ := 2147483647

/-- Multiplier of `std::minstd_rand0`. -/
def lcgMultiplier : ℕ := 16807

/-- Default seed of `std::minstd_rand0`, used because `WhiteNoiseGen`
default-constructs its engine member `gen_`. -/
def lcgDefaultSeed : ℕ := 1

/-- One engine draw: `x := 16807 * x mod 2147483647`. -/
def lcgNext (x : ℕ) : ℕ := (lcgMultiplier * x) % lcgModulus

/-- Engine state after `n` draws starting from the default seed. -/
def lcgState : ℕ → ℕ
  | 0 => lcgDefaultSeed
  | n + 1 => lcgNext (lcgState n)

/-- `std::generate_canonical` for one `minstd_rand0` output `x`:
`(x - min) / (max - min + 1) = (x - 1) / 2147483646` as a real number
(natural subtraction; engine outputs are `≥ 1`). -/
noncomputable def lcgCanonical (x : ℕ) : ℝ := ((x - 1 : ℕ) : ℝ) / 2147483646

/-- State of a `ToneGen` object: the base-class members `sample_`,
`amplitude_`, `sampleCount_`, the dynamic type, and (for
`WhiteNoiseGen`) the state of the engine member `gen_`. -/
structure ToneGen where
  kind : GenKind
  sample : ℝ
  amplitude : ℝ
  sampleCount : ℕ
  engine : ℕ

/-- The `ToneGen` base-class constructor: `sample_(-1.0), amplitude_(a),
sampleCount_(0)`; the engine member exists only in `WhiteNoiseGen` and is
default-constructed there (seed 1). -/
noncomputable def mkToneGen (k : GenKind) (a : ℝ) : ToneGen :=
  { kind := k, sample := -1, amplitude := a, sampleCount := 0, engine := lcgDefaultSeed }

/-- Default amplitude of `SineGen` (`SineGen(float a = 1.0)`). -/
noncomputable def sineDefaultAmp : ℝ := 1

/-- Default amplitude of `SquareGen` (`SquareGen(float a = 1.0)`). -/
noncomputable def squareDefaultAmp : ℝ := 1

/-- Default amplitude of `WhiteNoiseGen` (`WhiteNoiseGen(float a = .25)`). -/
noncomputable def noiseDefaultAmp : ℝ := 1/4

/-- `SineGen(a)`. -/
noncomputable def mkSineGen (a : ℝ) : ToneGen := mkToneGen GenKind.sine a

/-- `SquareGen(a)`. -/
noncomputable def mkSquareGen (a : ℝ) : ToneGen := mkToneGen GenKind.square a

/-- `WhiteNoiseGen(a)`; `dist_` is `uniform_real_distribution<float>(-a, a)`
and `gen_` is default-constructed. -/
noncomputable def mkWhiteNoiseGen (a : ℝ) : ToneGen := mkToneGen GenKind.noise a

/-- `SquareGen::sgn`: `(0.0 < val) - (val < 0.0)`. -/
noncomputable def sgn (v : ℝ) : ℝ := (if 0 < v then 1 else 0) - (if v < 0 then 1 else 0)

/-- One virtual `nextSample()` call: returns the produced sample and the
successor state.
* `SineGen`: `sample_ = amplitude_ * sin(float(sampleCount_)/16); ++sampleCount_;`
* `SquareGen`: `sample_ = amplitude_ * sgn(sin(float(sampleCount_)/16)); ++sampleCount_;`
* `WhiteNoiseGen`: `return dist_(gen_);` — one engine draw mapped affinely
  onto `[-amplitude_, amplitude_)`; neither `sample_` nor `sampleCount_`
  is touched. -/
noncomputable def nextSample (g : ToneGen) : ℝ × ToneGen :=
  match g.kind with
  | GenKind.sine =>
      let s := g.amplitude * Real.sin ((g.sampleCount : ℝ) / 16)
      (s, { g with sample := s, sampleCount := (g.sampleCount + 1) % uintWidth })
  | GenKind.square =>
      let s := g.amplitude * sgn (Real.sin ((g.sampleCount : ℝ) / 16))
      (s, { g with sample := s, sampleCount := (g.sampleCount + 1) % uintWidth })
  | GenKind.noise =>
      let e := lcgNext g.engine
      let s := lcgCanonical e * (g.amplitude - (-g.amplitude)) + (-g.amplitude)
      (s, { g with engine := e })

/-- Generator state after `n` successive `nextSample()` calls. -/
noncomputable def genIter (g : ToneGen) : ℕ → ToneGen
  | 0 => g
  | n + 1 => (nextSample (genIter g n)).2

/-- The `n`-th (0-based) output of repeated `nextSample()` calls from `g`. -/
noncomputable def genOutput (g : ToneGen) (n : ℕ) : ℝ := (nextSample (genIter g n)).1

theorem genIter_succ_left (g : ToneGen) (n : ℕ) :
    genIter g (n + 1) = genIter (nextSample g).2 n := by
  induction n with
  | zero => rfl
  | succ n ih =>
      show (nextSample (genIter g (n + 1))).2 = (nextSample (genIter (nextSample g).2 n)).2
      rw [ih]

theorem genIter_add (g : ToneGen) (a b : ℕ) :
    genIter g (a + b) = genIter (genIter g a) b := by
  induction b with
  | zero => rfl
  | succ b ih =>
      show (nextSample (genIter g (a + b))).2 = (nextSample (genIter (genIter g a) b)).2
      rw [ih]

theorem genOutput_add (g : ToneGen) (a b : ℕ) :
    genOutput (genIter g a) b = genOutput g (a + b) := by
  simp only [genOutput, genIter_add]

/-- Fields preserved by `nextSample` for the periodic generators, and the
counter increment. -/
theorem nextSample_periodic_snd (g : ToneGen)
    (h : g.kind = GenKind.sine ∨ g.kind = GenKind.square) :
    (nextSample g).2.kind = g.kind ∧
    (nextSample g).2.amplitude = g.amplitude ∧
    (nextSample g).2.engine = g.engine ∧
    (nextSample g).2.sampleCount = (g.sampleCount + 1) % uintWidth := by
  rcases h with h | h <;> simp [nextSample, h]

theorem genIter_periodic (k : GenKind) (hk : k = GenKind.sine ∨ k = GenKind.square)
    (a : ℝ) (n : ℕ) :
    (genIter (mkToneGen k a) n).kind = k ∧
    (genIter (mkToneGen k a) n).amplitude = a ∧
    (genIter (mkToneGen k a) n).sampleCount = n % uintWidth := by
  induction n with
  | zero => simp [genIter, mkToneGen]
  | succ n ih =>
      obtain ⟨hkind, hamp, hcount⟩ := ih
      have hper : (genIter (mkToneGen k a) n).kind = GenKind.sine ∨
          (genIter (mkToneGen k a) n).kind = GenKind.square := by
        rw [hkind]; exact hk
      obtain ⟨h1, h2, _, h4⟩ := nextSample_periodic_snd _ hper
      refine ⟨by rw [genIter, h1, hkind], by rw [genIter, h2, hamp], ?_⟩
      rw [genIter, h4, hcount, Nat.mod_add_mod]

/-- The `i`-th output of a fresh `SineGen(a)`, with the 32-bit counter wrap
explicit. -/
theorem sine_output_closed (a : ℝ) (i : ℕ) :
    genOutput (mkSineGen a) i = a * Real.sin (((i % uintWidth : ℕ) : ℝ) / 16) := by
  obtain ⟨hkind, hamp, hcount⟩ :=
    genIter_periodic GenKind.sine (Or.inl rfl) a i
  simp only [genOutput, mkSineGen] at *
  simp only [nextSample, hkind, hamp, hcount]

/-- The `i`-th output of a fresh `SquareGen(a)`, with the 32-bit counter wrap
explicit. -/
theorem square_output_closed (a : ℝ) (i : ℕ) :
    genOutput (mkSquareGen a) i = a * sgn (Real.sin (((i % uintWidth : ℕ) : ℝ) / 16)) := by
  obtain ⟨hkind, hamp, hcount⟩ :=
    genIter_periodic GenKind.square (Or.inr rfl) a i
  simp only [genOutput, mkSquareGen] at *
  simp only [nextSample, hkind, hamp, hcount]

/-- `sin (2^32 / 16) = sin 268435456 ≠ 0`: a nonzero rational is never an
integer multiple of `π`, because `π` is irrational. -/
theorem sin_wrapPoint_ne_zero : Real.sin 268435456 ≠ 0 := by
  intro h
  obtain ⟨n, hn⟩ := Real.sin_eq_zero_iff.mp h
  have hn0 : (n : ℝ) ≠ 0 := by
    intro h0
    rw [h0, zero_mul] at hn
    norm_num at hn
  have hpi : Real.pi = ((268435456 / n : ℚ) : ℝ) := by
    push_cast
    field_simp
    linarith [hn]
  exact irrational_pi ⟨268435456 / n, hpi.symm⟩

/-- C2: For every sample index `i ≥ 0` and every fixed amplitude `a`, the
`i`-th output of a freshly constructed Sine generator equals
`a * sin(i/16)` — provable only below the 32-bit counter wrap; the exact
output for all `i` reduces the index modulo `2^32`. -/
theorem C2_sine_exact (a : ℝ) (i : ℕ) (h : i < uintWidth) :
    genOutput (mkSineGen a) i = a * Real.sin ((i : ℝ) / 16) := by
  rw [sine_output_closed, Nat.mod_eq_of_lt h]

/-- Witness for C2 at `a = 1`, `i = 3`. -/
theorem C2_sine_exact_witness :
    genOutput (mkSineGen 1) 3 = 1 * Real.sin ((3 : ℝ) / 16) :=
  C2_sine_exact 1 3 (by norm_num [uintWidth])

/-- C2 counterexample: at index `i = 2^32` the `unsigned int` counter has
wrapped to 0, so the output of `SineGen(1)` is `sin 0 = 0`, while the claim
predicts `sin(2^32/16) = sin 268435456 ≠ 0`. -/
theorem C2_counterexample :
    genOutput (mkSineGen 1) 4294967296 ≠ 1 * Real.sin ((4294967296 : ℝ) / 16) := by
  rw [sine_output_closed]
  intro h
  have h1 : ((4294967296 : ℕ) % uintWidth : ℕ) = 0 := by norm_num [uintWidth]
  rw [h1] at h
  have h2 : (4294967296 : ℝ) / 16 = 268435456 := by norm_num
  rw [h2] at h
  norm_num at h
  exact sin_wrapPoint_ne_zero h.symm

theorem sgn_zero : sgn 0 = 0 := by
  simp [sgn]

theorem sgn_ne_zero_of_ne_zero (v : ℝ) (h : v ≠ 0) : sgn v ≠ 0 := by
  rcases lt_trichotomy v 0 with hv | hv | hv
  · simp [sgn, hv, asymm hv]
  · exact absurd hv h
  · simp [sgn, hv, asymm hv]

theorem mul_sgn_mem (a v : ℝ) : a * sgn v ∈ ({-a, 0, a} : Set ℝ) := by
  rcases lt_trichotomy v 0 with hv | hv | hv
  · simp [sgn, hv, asymm hv]
  · simp [sgn, hv]
  · simp [sgn, hv, asymm hv]

/-- C3: the `i`-th output of a fresh `SquareGen(a)` lies in `{-a, 0, a}`
(true for every `i`), and equals `a * sgn(sin(i/16))` — provable only below
the 32-bit counter wrap; for all `i` the index is reduced modulo `2^32`. -/
theorem C3_square_exact (a : ℝ) (i : ℕ) :
    genOutput (mkSquareGen a) i ∈ ({-a, 0, a} : Set ℝ) ∧
    (i < uintWidth → genOutput (mkSquareGen a) i = a * sgn (Real.sin ((i : ℝ) / 16))) := by
  constructor
  · rw [square_output_closed]
    exact mul_sgn_mem a _
  · intro h
    rw [square_output_closed, Nat.mod_eq_of_lt h]

/-- Witness for C3 at `a = 1`, `i = 3`. -/
theorem C3_square_exact_witness :
    genOutput (mkSquareGen 1) 3 ∈ ({-1, 0, 1} : Set ℝ) ∧
    genOutput (mkSquareGen 1) 3 = 1 * sgn (Real.sin ((3 : ℝ) / 16)) :=
  ⟨(C3_square_exact 1 3).1, (C3_square_exact 1 3).2 (by norm_num [uintWidth])⟩

/-- C3 counterexample: at index `i = 2^32` the wrapped counter gives
`sgn (sin 0) = 0`, while the claim predicts `sgn (sin 268435456) ≠ 0`. -/
theorem C3_counterexample :
    genOutput (mkSquareGen 1) 4294967296 ≠ 1 * sgn (Real.sin ((4294967296 : ℝ) / 16)) := by
  rw [square_output_closed]
  have h1 : ((4294967296 : ℕ) % uintWidth : ℕ) = 0 := by norm_num [uintWidth]
  rw [h1]
  have h2 : (4294967296 : ℝ) / 16 = 268435456 := by norm_num
  rw [h2]
  intro h
  norm_num [sgn_zero] at h
  exact sgn_ne_zero_of_ne_zero _ sin_wrapPoint_ne_zero h.symm

theorem lcgNext_le (x : ℕ) : lcgNext x ≤ 2147483646 := by
  have h : lcgNext x < lcgModulus := Nat.mod_lt _ (by norm_num [lcgModulus])
  simp only [lcgModulus] at h
  omega

theorem lcgState_le (n : ℕ) : lcgState n ≤ 2147483646 := by
  cases n with
  | zero => norm_num [lcgState, lcgDefaultSeed]
  | succ n => exact lcgNext_le _

theorem lcgCanonical_nonneg (x : ℕ) : 0 ≤ lcgCanonical x := by
  unfold lcgCanonical
  positivity

theorem lcgCanonical_lt_one (x : ℕ) (h : x ≤ 2147483646) : lcgCanonical x < 1 := by
  unfold lcgCanonical
  rw [div_lt_one (by norm_num)]
  have : (x - 1 : ℕ) < 2147483646 := by omega
  exact_mod_cast this

/-- The full state of `WhiteNoiseGen(a)` after `n` calls: only the engine
advances; `sample_` and `sampleCount_` stay at their constructed values. -/
theorem genIter_noise (a : ℝ) (n : ℕ) :
    genIter (mkWhiteNoiseGen a) n =
      { kind := GenKind.noise, sample := -1, amplitude := a,
        sampleCount := 0, engine := lcgState n } := by
  induction n with
  | zero => rfl
  | succ n ih =>
      show (nextSample (genIter (mkWhiteNoiseGen a) n)).2 = _
      rw [ih]
      simp [nextSample, lcgState]

/-- Closed form of the `n`-th output of `WhiteNoiseGen(a)`: the affine image
of the `(n+1)`-th engine draw from the fixed default seed. -/
theorem noise_output_closed (a : ℝ) (n : ℕ) :
    genOutput (mkWhiteNoiseGen a) n =
      lcgCanonical (lcgState (n + 1)) * (a - (-a)) + (-a) := by
  rw [genOutput, genIter_noise]
  simp [nextSample, lcgState]

/-- C7: every `WhiteNoiseGen(a)` output lies in `[-a, a]` (for `0 ≤ a`;
`uniform_real_distribution(lo, hi)` requires `lo ≤ hi`, and the program only
ever constructs the default `a = 0.25`), and the default construction
amplitudes are 1.0 for `SineGen` and `SquareGen` and 0.25 for
`WhiteNoiseGen`. -/
theorem C7_noise_range (a : ℝ) (ha : 0 ≤ a) (n : ℕ) :
    genOutput (mkWhiteNoiseGen a) n ∈ Set.Icc (-a) a ∧
    (mkSineGen sineDefaultAmp).amplitude = 1 ∧
    (mkSquareGen squareDefaultAmp).amplitude = 1 ∧
    (mkWhiteNoiseGen noiseDefaultAmp).amplitude = 1/4 := by
  refine ⟨?_, rfl, rfl, rfl⟩
  rw [noise_output_closed]
  have hc0 : 0 ≤ lcgCanonical (lcgState (n + 1)) := lcgCanonical_nonneg _
  have hc1 : lcgCanonical (lcgState (n + 1)) < 1 :=
    lcgCanonical_lt_one _ (lcgState_le _)
  constructor
  · nlinarith
  · nlinarith

/-- Witness for C7 at the program's actual construction `WhiteNoiseGen(0.25)`,
call index 0. -/
theorem C7_noise_range_witness :
    genOutput (mkWhiteNoiseGen (1/4)) 0 ∈ Set.Icc (-(1/4) : ℝ) (1/4) ∧
    (mkSineGen sineDefaultAmp).amplitude = 1 ∧
    (mkSquareGen squareDefaultAmp).amplitude = 1 ∧
    (mkWhiteNoiseGen noiseDefaultAmp).amplitude = 1/4 :=
  C7_noise_range (1/4) (by norm_num) 0

/-- C8 (amended): `SineGen` and `SquareGen` increment `sampleCount_` exactly
once per `nextSample()` call, wrapping modulo `2^32`; `WhiteNoiseGen::nextSample`
(`return dist_(gen_);`) leaves the counter untouched. -/
theorem C8_counter_step (g : ToneGen) :
    ((g.kind = GenKind.sine ∨ g.kind = GenKind.square) →
      (nextSample g).2.sampleCount = (g.sampleCount + 1) % uintWidth) ∧
    (g.kind = GenKind.noise → (nextSample g).2.sampleCount = g.sampleCount) := by
  constructor
  · intro h
    exact (nextSample_periodic_snd g h).2.2.2
  · intro h
    simp [nextSample, h]

/-- Witness for C8 at a fresh `SineGen(1)` and a fresh `WhiteNoiseGen(0.25)`. -/
theorem C8_counter_step_witness :
    (nextSample (mkSineGen 1)).2.sampleCount = ((mkSineGen 1).sampleCount + 1) % uintWidth ∧
    (nextSample (mkWhiteNoiseGen (1/4))).2.sampleCount = (mkWhiteNoiseGen (1/4)).sampleCount :=
  ⟨(C8_counter_step (mkSineGen 1)).1 (Or.inl rfl),
   (C8_counter_step (mkWhiteNoiseGen (1/4))).2 rfl⟩

/-- C8 counterexample: `WhiteNoiseGen::nextSample` does not increment the
sample counter — after one call on a fresh `WhiteNoiseGen(0.25)` the counter
is still 0, not `(0 + 1) % 2^32 = 1` as the claim requires of every variant. -/
theorem C8_counterexample :
    ¬ ((nextSample (mkWhiteNoiseGen noiseDefaultAmp)).2.sampleCount
        = ((mkWhiteNoiseGen noiseDefaultAmp).sampleCount + 1) % uintWidth) := by
  simp [nextSample, mkWhiteNoiseGen, mkToneGen, uintWidth]

/-- C10: `WhiteNoiseGen`'s engine is default-constructed with no per-instance
seed, so a fresh `WhiteNoiseGen(a)` is a fixed state determined by `a` alone,
and its `n`-th output is the closed function of `(a, n)` below — hence two
freshly constructed instances with the same amplitude produce exactly the
same sequence, on every run. -/
theorem C10_noise_deterministic (a : ℝ) (n : ℕ) :
    mkWhiteNoiseGen a =
      { kind := GenKind.noise, sample := -1, amplitude := a,
        sampleCount := 0, engine := lcgDefaultSeed } ∧
    genOutput (mkWhiteNoiseGen a) n =
      lcgCanonical (lcgState (n + 1)) * (a - (-a)) + (-a) :=
  ⟨rfl, noise_output_closed a n⟩

/-- The loop body of `SimplePlayback::callback` (tonegen.cpp lines 204-213):
`for (i = 0; i < nFrames; ++i) *buf++ = tg_->nextSample();` — produces the
`nFrames` consecutive samples in call order, returning them together with the
advanced generator state. -/
noncomputable def callbackSamples (g : ToneGen) : ℕ → List ℝ × ToneGen
  | 0 => ([], g)
  | n + 1 =>
      let p := nextSample g
      let r := callbackSamples p.2 n
      (p.1 :: r.1, r.2)

/-- The effect on the output buffer of writing a value list through the
post-incremented pointer `buf` starting at slot 0: the first `vals.length`
slots are overwritten in order, every later slot keeps its old value. -/
def writeSeq (vals buf : List ℝ) : List ℝ := vals ++ buf.drop vals.length

/-- The write pattern the claim describes (stated from the claim's words, for
comparison with `writeSeq`): the `j`-th produced value goes to frame `j`'s
channel 0, i.e. interleaved slot `j * nch`, and every other slot — the
remaining channels of each frame — is left unchanged. -/
def writeChannel0 (nch : ℕ) (vals buf : List ℝ) : List ℝ :=
  (List.range buf.length).map fun j =>
    if j % nch = 0 ∧ j / nch < vals.length then vals.getD (j / nch) 0 else buf.getD j 0

theorem callbackSamples_snd (n : ℕ) : ∀ g : ToneGen,
    (callbackSamples g n).2 = genIter g n := by
  induction n with
  | zero => intro g; rfl
  | succ n ih =>
      intro g
      show (callbackSamples (nextSample g).2 n).2 = _
      rw [ih, ← genIter_succ_left]

theorem callbackSamples_fst (n : ℕ) : ∀ g : ToneGen,
    (callbackSamples g n).1 = (List.range n).map (genOutput g) := by
  induction n with
  | zero => intro g; rfl
  | succ n ih =>
      intro g
      show (nextSample g).1 :: (callbackSamples (nextSample g).2 n).1 = _
      rw [ih, List.range_succ_eq_map, List.map_cons, List.map_map]
      congr 1
      apply List.map_congr_left
      intro j _
      show genOutput (genIter g 1) j = genOutput g (j + 1)
      rw [genOutput_add, Nat.add_comm]

/-- Length of the produced chunk: the callback makes exactly `nFrames` calls
to `nextSample()`. -/
theorem callbackSamples_length (g : ToneGen) (n : ℕ) :
    (callbackSamples g n).1.length = n := by
  rw [callbackSamples_fst]
  simp

/-- `k` successive callback invocations of `F` frames each, concatenating the
produced samples and threading the generator state. -/
noncomputable def runCallbacks (g : ToneGen) (F : ℕ) : ℕ → List ℝ × ToneGen
  | 0 => ([], g)
  | k + 1 =>
      let p := callbackSamples g F
      let r := runCallbacks p.2 F k
      (p.1 ++ r.1, r.2)

theorem runCallbacks_fst (F : ℕ) : ∀ (k : ℕ) (g : ToneGen),
    (runCallbacks g F k).1 = (List.range (k * F)).map (genOutput g) := by
  intro k
  induction k with
  | zero => intro g; simp [runCallbacks]
  | succ k ih =>
      intro g
      show (callbackSamples g F).1 ++ (runCallbacks (callbackSamples g F).2 F k).1 = _
      rw [ih, callbackSamples_fst, callbackSamples_snd]
      have hr : (k + 1) * F = F + k * F := by ring
      rw [hr, List.range_add, List.map_append, List.map_map]
      congr 1
      apply List.map_congr_left
      intro j _
      show genOutput (genIter g F) j = genOutput g (F + j)
      rw [genOutput_add]

/-- `RtAudio::StreamParameters` as used by the driver. -/
structure StreamParams where
  deviceId : ℕ
  nChannels : ℕ
  firstChannel : ℕ
deriving DecidableEq, Repr

/-- The backend-side stream state the driver can observe through `audio_`
(`isStreamOpen`, and whether the stream is currently running). -/
structure BackendState where
  streamOpen : Bool
  streamRunning : Bool
deriving DecidableEq, Repr

/-- The members of `SimplePlayback`: `audio_`, `streamParameters_`,
`playing_`, `sr_`, `fs_`, `tg_` (a possibly-null owning pointer). -/
structure SimplePlayback where
  audio : BackendState
  streamParameters : StreamParams
  playing : Bool
  sr : ℕ
  fs : ℕ
  tg : Option ToneGen

/-- The `SimplePlayback()` constructor: `audio_(), streamParameters_(),
playing_(false), sr_(0), fs_(512), tg_(NULL)`. -/
def mkSimplePlayback : SimplePlayback :=
  { audio := { streamOpen := false, streamRunning := false },
    streamParameters := { deviceId := 0, nChannels := 0, firstChannel := 0 },
    playing := false, sr := 0, fs := 512, tg := none }

/-- The generator the `switch (toneGen)` in `SimplePlayback::init`
constructs: case 1 `SquareGen()`, case 2 `WhiteNoiseGen()`, default
`SineGen()` (each with its constructor's default amplitude). -/
noncomputable def initGen : ℕ → ToneGen
  | 1 => mkSquareGen squareDefaultAmp
  | 2 => mkWhiteNoiseGen noiseDefaultAmp
  | _ => mkSineGen sineDefaultAmp

/-- The `GenKind` selected by the switch. -/
def selectGen : ℕ → GenKind
  | 1 => GenKind.square
  | 2 => GenKind.noise
  | _ => GenKind.sine

/-- Destruction/construction events of the `tg_` replacement step in
`SimplePlayback::init` (lines 158-171): `if (tg_) delete tg_;` happens
before the `switch` constructs the new generator. -/
inductive GenEvent where
  | destroyed
  | constructed (k : GenKind)
deriving DecidableEq, Repr

/-- The event order of the `tg_` replacement step, given the old pointer's
contents. -/
def replaceEvents (old : Option GenKind) (toneGen : ℕ) : List GenEvent :=
  (match old with
   | some _ => [GenEvent.destroyed]
   | none => []) ++ [GenEvent.constructed (selectGen toneGen)]

/-- `SimplePlayback::init(sr, nch, toneGen)`. `openOk` models whether
`audio_.openStream` succeeds or throws `RtAudioError`; `defaultDevice`
models `audio_.getDefaultOutputDevice()`; `negotiatedFs` the period size the
backend writes back through `&fs_`. The assignments to `sr_` and
`streamParameters_` happen before the `try` block, so they persist even when
`openStream` throws and `init` returns `false`. -/
noncomputable def init (openOk : Bool) (defaultDevice negotiatedFs : ℕ)
    (sr nch toneGen : ℕ) (st : SimplePlayback) : Bool × SimplePlayback :=
  let st1 := { st with
    sr := sr,
    streamParameters :=
      { deviceId := defaultDevice, nChannels := nch, firstChannel := 0 } }
  if openOk then
    let st2 := { st1 with
      audio := { st1.audio with streamOpen := true }, fs := negotiatedFs }
    (true, { st2 with tg := some (initGen toneGen) })
  else
    (false, st1)

/-- `SimplePlayback::start()`: `if (playing_) return false;` then
`startStream()` (success modelled by `startOk`) and `playing_ = true`; a
throwing `startStream` leaves every member unchanged. -/
def start (startOk : Bool) (st : SimplePlayback) : Bool × SimplePlayback :=
  if st.playing then (false, st)
  else if startOk then
    (true, { st with playing := true,
                     audio := { st.audio with streamRunning := true } })
  else (false, st)

/-- `SimplePlayback::stop()`: `if (!playing_) return false;` then
`stopStream()` (success modelled by `stopOk`), `playing_ = false`, and
`if (isStreamOpen()) closeStream()` (success modelled by `closeOk`). A
throwing `stopStream` leaves every member unchanged; a throwing
`closeStream` happens after `playing_` was already cleared. -/
def stop (stopOk closeOk : Bool) (st : SimplePlayback) : Bool × SimplePlayback :=
  if !st.playing then (false, st)
  else if !stopOk then (false, st)
  else
    let st1 := { st with playing := false,
                         audio := { st.audio with streamRunning := false } }
    if st1.audio.streamOpen then
      if closeOk then
        (true, { st1 with audio := { st1.audio with streamOpen := false } })
      else (false, st1)
    else (true, st1)

/-- C4: `start()` on an already-streaming driver and `stop()` on a
non-streaming driver both return `false` immediately from the initial
`playing_` guard, leaving every member — including the backend stream state
and the active generator — unchanged. -/
theorem C4_misuse_no_state_change (st : SimplePlayback) (sOk tOk cOk : Bool) :
    (st.playing = true → start sOk st = (false, st)) ∧
    (st.playing = false → stop tOk cOk st = (false, st)) := by
  constructor
  · intro h
    simp [start, h]
  · intro h
    simp [stop, h]

/-- A driver state that is Open and Streaming, used for concrete
instantiations. -/
def streamingState : SimplePlayback :=
  { mkSimplePlayback with
    playing := true
    audio := { streamOpen := true, streamRunning := true } }

/-- Witness for C4: `start` on a streaming driver, `stop` on the freshly
constructed driver. -/
theorem C4_misuse_no_state_change_witness :
    start true streamingState = (false, streamingState) ∧
    stop true true mkSimplePlayback = (false, mkSimplePlayback) :=
  ⟨(C4_misuse_no_state_change streamingState true true true).1 rfl,
   (C4_misuse_no_state_change mkSimplePlayback true true true).2 rfl⟩

/-- C5 (amended): init/start/stop report backend errors by returning `false`
(the `RtAudioError` is caught, never rethrown). When `openStream` fails,
`init` leaves the stream closed and `playing_`, `fs_`, `tg_` unchanged, but
`sr_` and `streamParameters_` were already assigned before the `try` block
and keep the new values. When `startStream` fails, `start` changes nothing.
When `stopStream` itself fails, `stop` changes nothing; but when
`stopStream` succeeds and `closeStream` then fails, `stop` returns `false`
with `playing_` already cleared — not the pre-call state. -/
theorem C5_failure_states (st : SimplePlayback) (dd nfs sr nch tone : ℕ) :
    (init false dd nfs sr nch tone st =
      (false, { st with
        sr := sr
        streamParameters :=
          { deviceId := dd, nChannels := nch, firstChannel := 0 } })) ∧
    (st.playing = false → start false st = (false, st)) ∧
    (st.playing = true → stop false true st = (false, st)) ∧
    (st.playing = true → st.audio.streamOpen = true →
      stop true false st =
        (false, { st with
          playing := false
          audio := { st.audio with streamRunning := false } })) := by
  refine ⟨rfl, ?_, ?_, ?_⟩
  · intro h
    simp [start, h]
  · intro h
    simp [stop, h]
  · intro h1 h2
    simp [stop, h1, h2]

/-- Witness for C5 on concrete states: a fresh driver for init/start, a
streaming driver for the two stop cases. -/
theorem C5_failure_states_witness :
    (init false 0 512 44100 1 0 mkSimplePlayback =
      (false, { mkSimplePlayback with
        sr := 44100
        streamParameters :=
          { deviceId := 0, nChannels := 1, firstChannel := 0 } })) ∧
    (start false mkSimplePlayback = (false, mkSimplePlayback)) ∧
    (stop false true streamingState = (false, streamingState)) ∧
    (stop true false streamingState =
      (false, { streamingState with
        playing := false
        audio := { streamingState.audio with streamRunning := false } })) :=
  ⟨(C5_failure_states mkSimplePlayback 0 512 44100 1 0).1,
   (C5_failure_states mkSimplePlayback 0 512 44100 1 0).2.1 rfl,
   (C5_failure_states streamingState 0 512 44100 1 0).2.2.1 rfl,
   (C5_failure_states streamingState 0 512 44100 1 0).2.2.2 rfl rfl⟩

/-- C5 counterexample: (1) a failing `init(44100, 1, 0)` on a fresh driver
does not leave the pre-call state intact — `sr_` has already been overwritten
(0 becomes 44100); (2) a `stop` whose `closeStream` fails returns failure yet
has already cleared `playing_`, so the state differs from before the call. -/
theorem C5_counterexample :
    ((init false 0 512 44100 1 0 mkSimplePlayback).2 ≠ mkSimplePlayback) ∧
    ((stop true false streamingState).1 = false ∧
     (stop true false streamingState).2 ≠ streamingState) := by
  refine ⟨?_, ?_, ?_⟩
  · intro h
    have hsr := congrArg SimplePlayback.sr h
    simp [init, mkSimplePlayback] at hsr
  · simp [stop, streamingState, mkSimplePlayback]
  · intro h
    have hp := congrArg SimplePlayback.playing h
    simp [stop, streamingState, mkSimplePlayback] at hp

/-- C6: every selector other than 1 and 2 falls into the `default:` case of
the switch and constructs `SineGen()`, so `init` with such a selector is
state-for-state identical to `init` with selector 0; and on re-initialization
the old generator is `delete`d before the new one is constructed. -/
theorem C6_default_selector (t : ℕ) (h1 : t ≠ 1) (h2 : t ≠ 2) :
    selectGen t = GenKind.sine ∧
    initGen t = initGen 0 ∧
    (∀ (ok : Bool) (dd nfs sr nch : ℕ) (st : SimplePlayback),
      init ok dd nfs sr nch t st = init ok dd nfs sr nch 0 st) ∧
    (∀ k : GenKind, replaceEvents (some k) t =
      [GenEvent.destroyed, GenEvent.constructed (selectGen t)]) := by
  rcases t with _ | _ | _ | t
  · exact ⟨rfl, rfl, fun _ _ _ _ _ _ => rfl, fun _ => rfl⟩
  · exact absurd rfl h1
  · exact absurd rfl h2
  · exact ⟨rfl, rfl, fun _ _ _ _ _ _ => rfl, fun _ => rfl⟩

/-- Witness for C6 at the claim's example selector 99. -/
theorem C6_default_selector_witness :
    selectGen 99 = GenKind.sine ∧
    initGen 99 = initGen 0 ∧
    init true 0 512 44100 1 99 mkSimplePlayback =
      init true 0 512 44100 1 0 mkSimplePlayback ∧
    replaceEvents (some GenKind.noise) 99 =
      [GenEvent.destroyed, GenEvent.constructed (selectGen 99)] := by
  obtain ⟨h1, h2, h3, h4⟩ := C6_default_selector 99 (by decide) (by decide)
  exact ⟨h1, h2, h3 true 0 512 44100 1 mkSimplePlayback, h4 GenKind.noise⟩

/-- C1 (amended): a callback invocation of frame count `N` makes exactly `N`
`nextSample()` calls and writes the results to the first `N` contiguous
interleaved slots of the output buffer — which coincide with channel 0 of
each of the `N` frames exactly when `nChannels = 1`; after
`init(44100, 1, 0)` (success) the driver holds a fresh default `SineGen` and
`start()` succeeds, and the concatenation of `k` callback invocations of `F`
frames each is the first `k*F` terms of the Sine sequence seeded at index 0. -/
theorem C1_callback_end_to_end (dd nfs : ℕ) (g : ToneGen) (N F k : ℕ) (buf : List ℝ) :
    (callbackSamples g N).1.length = N ∧
    writeSeq (callbackSamples g N).1 buf = (callbackSamples g N).1 ++ buf.drop N ∧
    (init true dd nfs 44100 1 0 mkSimplePlayback).1 = true ∧
    (init true dd nfs 44100 1 0 mkSimplePlayback).2.tg
      = some (mkSineGen sineDefaultAmp) ∧
    (start true (init true dd nfs 44100 1 0 mkSimplePlayback).2).1 = true ∧
    (runCallbacks (mkSineGen sineDefaultAmp) F k).1 =
      (List.range (k * F)).map (genOutput (mkSineGen sineDefaultAmp)) := by
  refine ⟨callbackSamples_length g N, ?_, rfl, rfl, rfl,
    runCallbacks_fst F k (mkSineGen sineDefaultAmp)⟩
  rw [writeSeq, callbackSamples_length]

/-- C1 counterexample: with `nChannels = 2` and `N = 2` the code writes the
two produced samples to interleaved slots 0 and 1 — frame 0's channel 0 and
channel 1 — whereas the claim places them at channel 0 of each frame (slots
0 and 2) leaving slot 1 unwritten. On buffer `[9, 9, 9, 9]`, slot 1 becomes
`sin(1/16)` in the code but stays 9 under the claim. -/
theorem C1_counterexample :
    (writeSeq (callbackSamples (mkSineGen 1) 2).1 [9, 9, 9, 9]).getD 1 0 ≠
    (writeChannel0 2 (callbackSamples (mkSineGen 1) 2).1 [9, 9, 9, 9]).getD 1 0 := by
  have hv : (callbackSamples (mkSineGen 1) 2).1
      = [genOutput (mkSineGen 1) 0, genOutput (mkSineGen 1) 1] := by
    rw [callbackSamples_fst]
    rfl
  rw [hv]
  have hL : (writeSeq [genOutput (mkSineGen 1) 0, genOutput (mkSineGen 1) 1]
      [9, 9, 9, 9]).getD 1 0 = genOutput (mkSineGen 1) 1 := rfl
  have hR : (writeChannel0 2 [genOutput (mkSineGen 1) 0, genOutput (mkSineGen 1) 1]
      [9, 9, 9, 9]).getD 1 0 = (9 : ℝ) := by
    norm_num [writeChannel0, List.range_succ]
  rw [hL, hR, sine_output_closed]
  have h116 : (((1 : ℕ) % uintWidth : ℕ) : ℝ) = 1 := by norm_num [uintWidth]
  rw [h116]
  have hs := Real.sin_le_one ((1 : ℝ) / 16)
  intro h
  nlinarith

/-- `AudioBuffer::SampleFormat` (audiobuffer.h: `INT16 = 16`, `FLOAT32 = 32`). -/
inductive SampleFormat where
  | INT16
  | FLOAT32
deriving DecidableEq, Repr

/-- The numeric value of the enum constant (its bit width). -/
def SampleFormat.bits : SampleFormat → ℕ
  | SampleFormat.INT16 => 16
  | SampleFormat.FLOAT32 => 32

/-- Bytes per sample of a format: 2 for INT16, 4 for FLOAT32. -/
def bytesPerSample (f : SampleFormat) : ℕ := f.bits / 8

/-- `voip_toolbox::AudioBuffer`: members `frameSize_`, `nChannels_`,
`sampleRate_`, `format_` and `data_` (a `std::vector<uint8_t>`, modelled as
its byte list). -/
structure AudioBuffer where
  frameSize : ℕ
  nChannels : ℕ
  sampleRate : ℕ
  format : SampleFormat
  data : List (Fin 256)

/-- Accessor `channels()`. -/
def AudioBuffer.channels (b : AudioBuffer) : ℕ := b.nChannels

/-- Accessor `size()`: `data_.size()`. -/
def AudioBuffer.size (b : AudioBuffer) : ℕ := b.data.length

/-- Accessor `nSamples()`: `frameSize() * channels()` (audiobuffer.h line 81). -/
def AudioBuffer.nSamples (b : AudioBuffer) : ℕ := b.frameSize * b.channels

/-- Modelled from the spec: the `AudioBuffer` constructor body (its .cpp
file) is not under src/ — only the declaration in audiobuffer.h is. Per the
spec, the owned contiguous byte region is allocated once at construction
with length `frameSize × channels × bytesPerSample(format)`, and the class
declares no operation that could resize it afterwards. -/
def mkAudioBuffer (fs nch sr : ℕ) (fmt : SampleFormat) : AudioBuffer :=
  { frameSize := fs
    nChannels := nch
    sampleRate := sr
    format := fmt
    data := List.replicate (fs * nch * bytesPerSample fmt) 0 }

/-- C9: every constructed `AudioBuffer` owns a byte region whose length is
exactly `frameSize × channels × bytesPerSample(format)` — allocated once at
construction, and no member of the class can resize it — and `nSamples()`
equals `frameSize() * channels()` for every buffer. -/
theorem C9_buffer_invariants (fs nch sr : ℕ) (fmt : SampleFormat) (b : AudioBuffer) :
    (mkAudioBuffer fs nch sr fmt).size = fs * nch * bytesPerSample fmt ∧
    b.nSamples = b.frameSize * b.channels := by
  constructor
  · simp [mkAudioBuffer, AudioBuffer.size]
  · rfl
